import Mathlib

/-!
Verification development for the framework-detection and dev-session
orchestration core of the open-lovable repository.

The TypeScript sources are shallowly embedded as pure Lean functions:

* `src/lib/framework-detector.ts`  → registry, `detectFramework`,
  `extractPackageFromImportError`, `getLogFilePaths`, `getRestartCommand`.
* `src/lib/framework-commands.ts`  → `packageManagers`, `frameworkCommands`,
  `detectPackageManager`, `getCommand`, `buildCommand`, `getInstallCommand`,
  `getProcessKillCommands`, `getHealthCheckCommand`, `getLogTailCommand`.
* `src/app/api/restart-dev-server/route.ts` POST → `restartPOST` (state
  machine over the process-wide globals, plus a trace of sandbox calls).
* the monitor-dev-logs GET route (second half of the same file) → `monitorGET`.
* `src/app/api/report-dev-error/route.ts` POST → `reportPOST`.
* the framework-operations route (src/unnamed/part_000) POST → `operationPOST`.

Asynchronous sandbox capabilities are modelled as oracles passed in as pure
functions; `provider.runCommand` is `exec : String → Option CmdResult`, where
`none` models the call throwing (the routes wrap it so that a throw is
downgraded to `exitCode 1` / `false` exactly where the source does).
JSON parsing is modelled by oracle functions `parseM` / `parseC` returning
`Option`, `none` modelling a `JSON.parse` throw (always caught in the source).
-/

namespace OpenLovable

/-! ### Small JavaScript-flavoured string helpers -/

/-- The single-quote character, kept out of string literals. -/
def sqc : Char := Char.ofNat 39

/-- The double-quote character. -/
def dqc : Char := Char.ofNat 34

def sq : String := sqc.toString

def dq : String := dqc.toString

/-- `needle.isPrefixOf` scanned at every position: JS `String.includes`. -/
def listContains (needle : List Char) : List Char → Bool
  | [] => needle.isEmpty
  | c :: rest => needle.isPrefixOf (c :: rest) || listContains needle rest

/-- JS `s.includes(pat)`. -/
def strContains (s pat : String) : Bool := listContains pat.toList s.toList

/-- JS regex test `/ts\d+/` on an (already lower-cased) string: some position
holds `t`, `s`, then a digit. -/
def hasTsDigit : List Char → Bool
  | [] => false
  | c :: rest =>
    (match c, rest with
     | 't', 's' :: d :: _ => d.isDigit
     | _, _ => false) || hasTsDigit rest

/-- JS `s.split(sep)` for a single-character separator (never returns `[]`). -/
def splitCharAux (sep : Char) : List Char → List Char → List String
  | [], cur => [String.mk cur.reverse]
  | c :: rest, cur =>
    if c = sep then String.mk cur.reverse :: splitCharAux sep rest []
    else splitCharAux sep rest (c :: cur)

def splitChar (sep : Char) (s : String) : List String := splitCharAux sep s.toList []

/-- JS `s.startsWith(pre)` (char-list based so that it reduces in the
kernel). -/
def jsStartsWith (s pre : String) : Bool := pre.toList.isPrefixOf s.toList

/-- JS `s.toLowerCase()` (ASCII, as all compared text here is ASCII). -/
def jsToLower (s : String) : String := String.mk (s.toList.map Char.toLower)

/-- JS `s.trim()`. -/
def jsTrim (s : String) : String :=
  String.mk (((s.toList.dropWhile Char.isWhitespace).reverse.dropWhile
    Char.isWhitespace).reverse)

/-- JS `array.join(sep)`. -/
def joinSep (sep : String) : List String → String
  | [] => ""
  | a :: as => as.foldl (fun acc x => acc ++ sep ++ x) a

/-- Lower-case and strip every character outside `a`–`z`:
`name.toLowerCase().replace(/[^a-z]/g, '')`. -/
def normalizeName (s : String) : String :=
  String.mk ((jsToLower s).toList.filter (fun c => decide ('a' ≤ c) && decide (c ≤ 'z')))

/-- Result shape of the `runCommand` capability. -/
structure CmdResult where
  stdout : String
  stderr : String
  exitCode : Int
deriving DecidableEq

/-! ### `src/lib/framework-detector.ts` -/

/-- The import-error regexes of the registry all have the form
`<literal prefix>([^<delim>]+)<delim>`; they are embedded as this data.
The `syntaxError` / `typeError` / `buildError` regex fields of the source
are never consumed by any of the modelled operations and are omitted. -/
structure CapturePattern where
  pre : String
  delim : Char
deriving DecidableEq

structure PackagePatterns where
  dependencies : List String
  devDependencies : List String
deriving DecidableEq

structure FrameworkConfig where
  name : String
  devCommand : String
  buildCommand : String
  startCommand : String
  testCommand : Option String
  devPort : Nat
  logFiles : List String
  importPat : CapturePattern
  packagePatterns : PackagePatterns
  configFiles : List String
deriving DecidableEq

def nextjsConfig : FrameworkConfig :=
  { name := "Next.js"
    devCommand := "npm run dev"
    buildCommand := "npm run build"
    startCommand := "npm start"
    testCommand := some "npm test"
    devPort := 3000
    logFiles := ["/tmp/nextjs.log", "/tmp/next-dev.log", ".next/trace"]
    importPat := { pre := "Module not found: Can" ++ sq ++ "t resolve " ++ sq, delim := sqc }
    packagePatterns :=
      { dependencies := ["next", "react", "react-dom"]
        devDependencies := ["@types/react", "@types/node"] }
    configFiles := ["next.config.js", "next.config.ts", "next.config.mjs"] }

def viteConfig : FrameworkConfig :=
  { name := "Vite"
    devCommand := "npm run dev"
    buildCommand := "npm run build"
    startCommand := "npm run preview"
    testCommand := some "npm test"
    devPort := 5173
    logFiles := ["/tmp/vite.log", "/tmp/vite-dev.log"]
    importPat := { pre := "Failed to resolve import " ++ dq, delim := dqc }
    packagePatterns :=
      { dependencies := ["vite"]
        devDependencies := ["@vitejs/plugin-react", "@vitejs/plugin-react-swc"] }
    configFiles := ["vite.config.js", "vite.config.ts", "vite.config.mjs"] }

def craConfig : FrameworkConfig :=
  { name := "Create React App"
    devCommand := "npm start"
    buildCommand := "npm run build"
    startCommand := "serve -s build"
    testCommand := some "npm test"
    devPort := 3000
    logFiles := ["/tmp/react-scripts.log"]
    importPat := { pre := "Module not found: Can" ++ sq ++ "t resolve " ++ sq, delim := sqc }
    packagePatterns :=
      { dependencies := ["react-scripts"]
        devDependencies := [] }
    configFiles := ["public/index.html", "src/index.js", "src/index.tsx"] }

/-- `frameworkConfigs`, in `Object.entries` (insertion) order. -/
def frameworkConfigs : List (String × FrameworkConfig) :=
  [("nextjs", nextjsConfig), ("vite", viteConfig), ("cra", craConfig)]

def getFrameworkConfig (framework : String) : Option FrameworkConfig :=
  (frameworkConfigs.lookup framework)

/-- The parts of a `package.json` document read by the detector.  The source
merges `{...dependencies, ...devDependencies}` and only tests keys of the
merged object for truthiness; `deps` is the set of names truthy there.
`hasDevScript` / `hasBuildScript` model `scripts` being present with a truthy
`dev` / `build` entry. -/
structure Manifest where
  deps : List String
  hasDevScript : Bool
  hasBuildScript : Bool
deriving DecidableEq

structure DetectionResult where
  framework : String
  confidence : Rat
  config : FrameworkConfig
  evidence : List String
deriving DecidableEq

/-- The six signal groups of the detector's scoring loop, as named
functions.  A capability that is absent (`none`) contributes nothing; a
capability that throws is folded into its neutral result, as the per-use
`try` blocks of the source do. -/
def primaryHits (config : FrameworkConfig) (packageJson : Option Manifest) : List String :=
  match packageJson with
  | some m => config.packagePatterns.dependencies.filter (fun d => m.deps.contains d)
  | none => []

def secondaryHits (config : FrameworkConfig) (packageJson : Option Manifest) : List String :=
  match packageJson with
  | some m => config.packagePatterns.devDependencies.filter (fun d => m.deps.contains d)
  | none => []

def devScriptHit (config : FrameworkConfig) (packageJson : Option Manifest) : Bool :=
  match packageJson with
  | some m => m.hasDevScript && strContains config.devCommand "dev"
  | none => false

def buildScriptHit (config : FrameworkConfig) (packageJson : Option Manifest) : Bool :=
  match packageJson with
  | some m => m.hasBuildScript && strContains config.buildCommand "build"
  | none => false

def configHits (config : FrameworkConfig) (fileExists : Option (String → Bool)) :
    List String :=
  match fileExists with
  | some fe => config.configFiles.filter fe
  | none => []

def processHit (config : FrameworkConfig) (runCommand : Option (String → CmdResult)) :
    Bool :=
  match runCommand with
  | some rc =>
    let r := rc ("ps aux | grep -i " ++ normalizeName config.name)
    r.exitCode == 0 && jsTrim r.stdout != ""
  | none => false

/-- Score and evidence accumulated for one candidate framework.  The source
accumulates with `score +=` / `evidence.push` in this exact order (primary
deps, dev deps, dev script, build script, config files, process check); the
sum below is that accumulation. -/
def frameworkScore (config : FrameworkConfig) (packageJson : Option Manifest)
    (fileExists : Option (String → Bool)) (runCommand : Option (String → CmdResult)) :
    Nat × List String :=
  (30 * (primaryHits config packageJson).length
     + 20 * (secondaryHits config packageJson).length
     + (if devScriptHit config packageJson then 15 else 0)
     + (if buildScriptHit config packageJson then 10 else 0)
     + 25 * (configHits config fileExists).length
     + (if processHit config runCommand then 15 else 0),
   (primaryHits config packageJson).map (fun d => "Found dependency: " ++ d)
     ++ (secondaryHits config packageJson).map (fun d => "Found dev dependency: " ++ d)
     ++ (if devScriptHit config packageJson then ["Has dev script"] else [])
     ++ (if buildScriptHit config packageJson then ["Has build script"] else [])
     ++ (configHits config fileExists).map (fun f => "Found config file: " ++ f)
     ++ (if processHit config runCommand then
          ["Found running " ++ config.name ++ " process"] else []))

structure Scored where
  framework : String
  score : Nat
  evidence : List String
deriving DecidableEq

/-- First entry attaining the maximal score: the head of the source's stable
descending `sort` (ties keep registry order). -/
def pickBest : Scored → List Scored → Scored
  | b, [] => b
  | b, r :: rest => pickBest (if r.score > b.score then r else b) rest

def fallbackResult : DetectionResult :=
  { framework := "vite", confidence := 0, config := viteConfig,
    evidence := ["No clear framework detected, defaulting to Vite"] }

def detectFramework (packageJson : Option Manifest) (fileExists : Option (String → Bool))
    (runCommand : Option (String → CmdResult)) : DetectionResult :=
  let results := frameworkConfigs.map (fun p =>
    let sc := frameworkScore p.2 packageJson fileExists runCommand
    { framework := p.1, score := sc.1, evidence := sc.2 : Scored })
  match results with
  | [] => fallbackResult
  | r :: rest =>
    let best := pickBest r rest
    if best.score = 0 then fallbackResult
    else
      { framework := best.framework, confidence := min ((best.score : Rat) / 100) 1,
        config := (getFrameworkConfig best.framework).getD viteConfig,
        evidence := best.evidence }

/-- First position where `pat.pre` occurs followed by at least one
non-delimiter character and then the delimiter; returns the capture.
This is the leftmost match of the regex `<pre>([^<delim>]+)<delim>`. -/
def takeUntil (delim : Char) : List Char → Option (List Char)
  | [] => none
  | c :: t => if c = delim then some [] else (takeUntil delim t).map (fun l => c :: l)

def findCapture (pre : List Char) (delim : Char) : List Char → Option (List Char)
  | [] => none
  | c :: t =>
    if pre.isPrefixOf (c :: t) then
      match takeUntil delim ((c :: t).drop pre.length) with
      | some cap => if cap.isEmpty then findCapture pre delim t else some cap
      | none => findCapture pre delim t
    else findCapture pre delim t

def matchCapture (pat : CapturePattern) (msg : String) : Option String :=
  (findCapture pat.pre.toList pat.delim msg.toList).map (fun l => String.mk l)

def extractPackageFromImportError (errorMessage : String) (framework : String) :
    Option String :=
  match getFrameworkConfig framework with
  | none => none
  | some config =>
    match matchCapture config.importPat errorMessage with
    | none => none
    | some ipath =>
      if jsStartsWith ipath "." then none
      else if jsStartsWith ipath "@" then
        let parts := splitChar '/' ipath
        if parts.length ≥ 2 then some (joinSep "/" (parts.take 2))
        else some ipath
      else some ((splitChar '/' ipath).headD "")

def getRestartCommand (framework : String) : String :=
  match getFrameworkConfig framework with
  | none => "npm run dev"
  | some c => c.devCommand

def getLogFilePaths (framework : String) : List String :=
  match getFrameworkConfig framework with
  | none => ["/tmp/dev.log"]
  | some c => c.logFiles

/-! ### `src/lib/framework-commands.ts` -/

/-- `keyof CommandMapping`. -/
inductive CmdAction where
  | install | dev | build | start | test | lint | typecheck | clean
deriving DecidableEq

/-- The required fields are always present; the optional ones are `Option`,
matching the `?` fields of the source interface. -/
structure CommandMapping where
  install : List String
  dev : List String
  build : List String
  start : List String
  test : Option (List String)
  lint : Option (List String)
  typecheck : Option (List String)
  clean : Option (List String)
deriving DecidableEq

/-- Field access `commands[action]` (an absent optional field is `undefined`,
hence `none`; an empty array is truthy and survives to the length check). -/
def CommandMapping.get (m : CommandMapping) : CmdAction → Option (List String)
  | .install => some m.install
  | .dev => some m.dev
  | .build => some m.build
  | .start => some m.start
  | .test => m.test
  | .lint => m.lint
  | .typecheck => m.typecheck
  | .clean => m.clean

def nextjsCommands : CommandMapping :=
  { install := ["npm install", "yarn install", "pnpm install"]
    dev := ["npm run dev", "yarn dev", "pnpm dev"]
    build := ["npm run build", "yarn build", "pnpm build"]
    start := ["npm start", "yarn start", "pnpm start"]
    test := some ["npm test", "yarn test", "pnpm test"]
    lint := some ["npm run lint", "yarn lint", "pnpm lint"]
    typecheck := some ["npx tsc --noEmit", "yarn tsc --noEmit", "pnpm tsc --noEmit"]
    clean := some ["rm -rf .next", "rm -rf node_modules/.cache"] }

def viteCommands : CommandMapping :=
  { install := ["npm install", "yarn install", "pnpm install"]
    dev := ["npm run dev", "yarn dev", "pnpm dev"]
    build := ["npm run build", "yarn build", "pnpm build"]
    start := ["npm run preview", "yarn preview", "pnpm preview"]
    test := some ["npm test", "yarn test", "pnpm test"]
    lint := some ["npm run lint", "yarn lint", "pnpm lint"]
    typecheck := some ["npx tsc --noEmit", "yarn tsc --noEmit", "pnpm tsc --noEmit"]
    clean := some ["rm -rf dist", "rm -rf node_modules/.vite"] }

def craCommands : CommandMapping :=
  { install := ["npm install", "yarn install"]
    dev := ["npm start", "yarn start"]
    build := ["npm run build", "yarn build"]
    start := ["npx serve -s build", "yarn global add serve && serve -s build"]
    test := some ["npm test", "yarn test"]
    lint := some ["npm run lint", "yarn lint"]
    typecheck := some ["npx tsc --noEmit", "yarn tsc --noEmit"]
    clean := some ["rm -rf build", "rm -rf node_modules/.cache"] }

def frameworkCommands : List (String × CommandMapping) :=
  [("nextjs", nextjsCommands), ("vite", viteCommands), ("cra", craCommands)]

structure PackageManagerInfo where
  name : String
  lockFile : String
  installCommand : String
  runCommand : String
deriving DecidableEq

def pmNpm : PackageManagerInfo :=
  { name := "npm", lockFile := "package-lock.json",
    installCommand := "npm install", runCommand := "npm run" }

def pmYarn : PackageManagerInfo :=
  { name := "yarn", lockFile := "yarn.lock",
    installCommand := "yarn install", runCommand := "yarn" }

def pmPnpm : PackageManagerInfo :=
  { name := "pnpm", lockFile := "pnpm-lock.yaml",
    installCommand := "pnpm install", runCommand := "pnpm" }

/-- `packageManagers`, in `Object.entries` (insertion) order. -/
def packageManagers : List (String × PackageManagerInfo) :=
  [("npm", pmNpm), ("yarn", pmYarn), ("pnpm", pmPnpm)]

/-- First registry entry whose lock file exists; defaults to npm.  The route
wrappers make `fileExists` total (a throwing capability yields `false`). -/
def detectPackageManager (fileExists : String → Bool) : PackageManagerInfo :=
  match packageManagers.find? (fun p => fileExists p.2.lockFile) with
  | some p => p.2
  | none => pmNpm

def getFrameworkCommands (framework : String) : Option CommandMapping :=
  frameworkCommands.lookup framework

def getCommand (framework : String) (action : CmdAction) (packageManager : String) :
    Option String :=
  match getFrameworkCommands framework with
  | none => none
  | some commands =>
    match commands.get action with
    | none => none
    | some actionCommands =>
      if actionCommands.isEmpty then none
      else
        match packageManagers.lookup packageManager with
        | none => actionCommands.head?
        | some pmInfo =>
          match actionCommands.find? (fun cmd =>
              jsStartsWith cmd pmInfo.name || jsStartsWith cmd pmInfo.runCommand) with
          | some c => some c
          | none => actionCommands.head?

def buildCommand (framework : String) (action : CmdAction) (packageManager : String)
    (args : List String) : Option String :=
  match getCommand framework action packageManager with
  | none => none
  | some base =>
    if args.isEmpty then some base
    else some (base ++ " " ++ joinSep " " args)

/-- Note: when `isDev` is false the source interpolates an empty `devFlag`,
leaving a double space that `.trim` does not remove; reproduced faithfully. -/
def getInstallCommand (packages : List String) (packageManager : String) (isDev : Bool) :
    String :=
  let pmInfo := (packageManagers.lookup packageManager).getD pmNpm
  if packages.isEmpty then pmInfo.installCommand
  else
    let devFlag := if isDev then (if packageManager = "npm" then "--save-dev" else "--dev")
      else ""
    let packagesStr := joinSep " " packages
    if packageManager = "yarn" then jsTrim ("yarn add " ++ devFlag ++ " " ++ packagesStr)
    else if packageManager = "pnpm" then jsTrim ("pnpm add " ++ devFlag ++ " " ++ packagesStr)
    else jsTrim ("npm install " ++ devFlag ++ " " ++ packagesStr)

/-- JS `port || config.devPort` (`0` is falsy). -/
def portOr (port : Option Nat) (dflt : Nat) : Nat :=
  match port with
  | some p => if p = 0 then dflt else p
  | none => dflt

def getProcessKillCommands (framework : String) (port : Option Nat) : List String :=
  let base := match getFrameworkConfig framework with
    | some config =>
      let targetPort := portOr port config.devPort
      ["pkill -f " ++ dq ++ config.devCommand ++ dq,
       "pkill -f " ++ dq ++ jsToLower config.name ++ dq,
       "lsof -ti:" ++ toString targetPort ++ " | xargs kill -9 || true",
       "fuser -k " ++ toString targetPort ++ "/tcp || true"]
    | none => []
  base ++ ["pkill -f " ++ dq ++ "node.*dev" ++ dq,
           "pkill -f " ++ dq ++ "node.*start" ++ dq]

/-- JS `port || config?.devPort || 3000`. -/
def getHealthCheckCommand (framework : String) (port : Option Nat) : String :=
  let cfgPort := match getFrameworkConfig framework with
    | some config => if config.devPort = 0 then 3000 else config.devPort
    | none => 3000
  let targetPort := portOr port cfgPort
  "curl -f http://localhost:" ++ toString targetPort ++ " > /dev/null 2>&1"

def getLogTailCommand (framework : String) (lines : Nat) : List String :=
  match getFrameworkConfig framework with
  | none => ["tail -" ++ toString lines ++ " /tmp/dev.log"]
  | some config => config.logFiles.map (fun logFile =>
      "tail -" ++ toString lines ++ " " ++ logFile ++ " 2>/dev/null || echo "
        ++ dq ++ "Log file " ++ logFile ++ " not found" ++ dq)

/-! ### Error records

JSON-parsed records are heterogeneous JS objects; the fields the routes
actually touch are modelled, each optional.  For the `line` / `column`
fields the JS distinction between `undefined` (absent field) and `null`
matters to the `===` duplicate check, so those are tri-state. -/

inductive JsNullable (α : Type) where
  | undef
  | null
  | val (a : α)
deriving DecidableEq

/-- JS strict equality `===` on a nullable value. -/
def JsNullable.strictEq [DecidableEq α] : JsNullable α → JsNullable α → Bool
  | .undef, .undef => true
  | .null, .null => true
  | .val a, .val b => decide (a = b)
  | _, _ => false

structure ErrObj where
  type : Option String
  package : Option String
  message : Option String
  file : Option String
  line : JsNullable Int
  column : JsNullable Int
  stack : Option String
  framework : Option String
  timestamp : Option String
  reported : Option Bool
deriving DecidableEq

def emptyErr : ErrObj :=
  { type := none, package := none, message := none, file := none,
    line := .undef, column := .undef, stack := none, framework := none,
    timestamp := none, reported := none }

/-- JS template interpolation of a possibly-absent string field
(`undefined` renders as the text "undefined"). -/
def jsStr : Option String → String
  | some s => s
  | none => "undefined"

/-- Monitor-route error dedup key: `` `${e.type}-${e.package || e.message}` ``. -/
def errKey (e : ErrObj) : String :=
  let t := match e.package with
    | some p => if p = "" then jsStr e.message else p
    | none => jsStr e.message
  jsStr e.type ++ "-" ++ t

/-- Monitor-route warning dedup key: the `message` field (always a string on
records produced by the classifier, which are the only warnings collected). -/
def warnKey (w : ErrObj) : String := jsStr w.message

/-- Insertion-order upsert: `Map.set` keeps the position of the first
occurrence of a key but replaces its value. -/
def upsert (k : String) (x : α) : List (String × α) → List (String × α)
  | [] => [(k, x)]
  | p :: rest => if p.1 = k then (k, x) :: rest else p :: upsert k x rest

def dedupFold (key : α → String) (xs : List α) (acc : List (String × α)) :
    List (String × α) :=
  xs.foldl (fun a x => upsert (key x) x a) acc

/-- `Array.from(new Map(xs.map(x => [key x, x])).values())`. -/
def mapDedup (key : α → String) (xs : List α) : List α :=
  (dedupFold key xs []).map Prod.snd

/-! ### Shared route plumbing

Every route binds the same three helpers over the sandbox provider; the
provider's `runCommand` is the oracle `exec`, `none` modelling a throw. -/

/-- The route-local `fileExists` wrapper (`test -f`, throw ⇒ `false`). -/
def routeFileExists (exec : String → Option CmdResult) : String → Bool := fun path =>
  match exec ("test -f " ++ path) with
  | some r => r.exitCode == 0
  | none => false

/-- The route-local `runCommand` wrapper (throw ⇒ `{stdout:"", exitCode:1}`;
the `stderr` field carries the thrown message in the source, whose content no
consumer reads). -/
def routeRunCommand (exec : String → Option CmdResult) : String → CmdResult := fun cmd =>
  match exec cmd with
  | some r => r
  | none => { stdout := "", stderr := "", exitCode := 1 }

/-- `cat package.json`, parsed when it exits 0; a parse throw is caught. -/
def routeManifest (exec : String → Option CmdResult)
    (parseM : String → Option Manifest) : Option Manifest :=
  match exec "cat package.json" with
  | some r => if r.exitCode == 0 then parseM r.stdout else none
  | none => none

def routeDetect (exec : String → Option CmdResult)
    (parseM : String → Option Manifest) : DetectionResult :=
  detectFramework (routeManifest exec parseM) (some (routeFileExists exec))
    (some (routeRunCommand exec))

/-- `cat /tmp/<fw>-errors.json`; `data.errors || []`, all failures giving `[]`. -/
def loadCachedErrors (exec : String → Option CmdResult)
    (parseC : String → Option (List ErrObj)) (framework : String) : List ErrObj :=
  match exec ("cat /tmp/" ++ framework ++ "-errors.json") with
  | some r => if r.exitCode == 0 then (parseC r.stdout).getD [] else []
  | none => []

/-! ### `src/app/api/restart-dev-server/route.ts` (POST) -/

structure RestartState where
  hasProvider : Bool
  providerHasRestart : Bool
  devRestartInProgress : Bool
  lastDevRestartTime : Nat
deriving DecidableEq

/-- A call issued against the sandbox provider.  `clearErrorsFile` stands for
the `echo '<json>' > /tmp/<fw>-errors.json` command (content structural);
`restartCall` is the native `provider.restartDevServer()`. -/
inductive SbCall where
  | runCmd (cmd : String)
  | clearErrorsFile (framework : String) (ts : Nat)
  | restartCall
deriving DecidableEq

inductive RestartResponse where
  | noSandbox
  | alreadyInProgress
  | cooldown (remainingSecs : Int)
  | restarted (framework : String) (command : String) (port : Nat)
  | serverError
deriving DecidableEq

/-- Commands the detection phase issues (the capability loops probe every
config file and run one process listing per registry entry, independent of
the results). -/
def detectCalls : List SbCall :=
  (frameworkConfigs.map (fun p =>
    p.2.configFiles.map (fun f => SbCall.runCmd ("test -f " ++ f))
      ++ [SbCall.runCmd ("ps aux | grep -i " ++ normalizeName p.2.name)])).flatten

/-- The four manual kill commands of the restart route. -/
def restartKillCommands (config : FrameworkConfig) : List String :=
  ["pkill -f " ++ dq ++ config.devCommand ++ dq,
   "pkill -f " ++ dq ++ "node.*" ++ jsToLower config.name ++ dq,
   "pkill -f " ++ dq ++ jsToLower config.name ++ dq,
   "lsof -ti:" ++ toString config.devPort ++ " | xargs kill -9 || true"]

def startCommandFor (framework devCommand : String) : String :=
  "sh -c " ++ dq ++ "nohup " ++ devCommand ++ " > /tmp/" ++ framework
    ++ "-dev.log 2>&1 &" ++ dq

/-- Body of the restart handler, entered with the in-progress flag set.
Kill-command and error-file-write failures are swallowed by their own `try`
blocks; `restartDevServer()` (`restartThrows`) and the background start
command are not, so their throws reach the outer catch, which clears the
flag and answers 500 without touching `lastDevRestartTime`. -/
def restartBody (s : RestartState) (now2 nowErr : Nat) (exec : String → Option CmdResult)
    (parseM : String → Option Manifest) (restartThrows : Bool) :
    RestartState × RestartResponse × List SbCall :=
  let detection := routeDetect exec parseM
  let tr0 : List SbCall := SbCall.runCmd "cat package.json" :: detectCalls
  if s.providerHasRestart then
    if restartThrows then
      ({ s with devRestartInProgress := false }, .serverError, tr0 ++ [.restartCall])
    else
      ({ s with devRestartInProgress := false, lastDevRestartTime := now2 },
       .restarted detection.framework detection.config.devCommand detection.config.devPort,
       tr0 ++ [.restartCall])
  else
    let kills := (restartKillCommands detection.config).map SbCall.runCmd
    let startCmd := startCommandFor detection.framework detection.config.devCommand
    let tr1 := tr0 ++ kills
      ++ [SbCall.clearErrorsFile detection.framework nowErr, SbCall.runCmd startCmd]
    match exec startCmd with
    | none => ({ s with devRestartInProgress := false }, .serverError, tr1)
    | some _ =>
      ({ s with devRestartInProgress := false, lastDevRestartTime := now2 },
       .restarted detection.framework detection.config.devCommand detection.config.devPort,
       tr1)

/-- The POST handler.  `now` is `Date.now()` at the cooldown check, `now2` at
the completion timestamp, `nowErr` inside the error-file reset command. -/
def restartPOST (s : RestartState) (now now2 nowErr : Nat)
    (exec : String → Option CmdResult) (parseM : String → Option Manifest)
    (restartThrows : Bool) : RestartState × RestartResponse × List SbCall :=
  if !s.hasProvider then (s, .noSandbox, [])
  else if s.devRestartInProgress then (s, .alreadyInProgress, [])
  else if s.lastDevRestartTime ≠ 0 ∧ (now : Int) - s.lastDevRestartTime < 5000 then
    (s, .cooldown ((5000 - ((now : Int) - s.lastDevRestartTime) + 999) / 1000), [])
  else
    restartBody { s with devRestartInProgress := true } now2 nowErr exec parseM restartThrows

/-! ### The framework-operations route (`src/unnamed/part_000`, POST) -/

/-- The process-wide globals of the operations route.  The two maps are total
functions with the JS defaults (`undefined` is falsy / `|| 0`). -/
structure OpState where
  hasProvider : Bool
  operationInProgress : String → Bool
  lastOperationTime : String → Nat

structure OpRequest where
  operation : Option String
  packages : List String
  argsDev : Bool
  argsLines : Option Nat
  force : Bool

structure OpResult where
  success : Bool
  framework : String
  frameworkName : String
  packageManager : String
  operation : String
  command : Option String
  exitCode : Option Int
  output : Option String
  errorField : Option String
  healthy : Option Bool
  processRunning : Option Bool
  port : Option Nat
  url : Option String
  logFile : Option String
  killResults : Option (List (String × Option Int))
  logs : Option (List (String × String))
deriving DecidableEq

inductive OpOutcome where
  | noSandbox
  | serverError
  | missingOperation
  | alreadyInProgress
  | cooldownResp (remaining : Int)
  | done (result : OpResult)
deriving DecidableEq

def updB (f : String → Bool) (k : String) (v : Bool) : String → Bool :=
  fun x => if x = k then v else f x

def updN (f : String → Nat) (k : String) (v : Nat) : String → Nat :=
  fun x => if x = k then v else f x

/-- JS truthiness of an optional string (absent or empty ⇒ falsy). -/
def truthyStr : Option String → Option String
  | some s => if s = "" then none else some s
  | none => none

def opBase (detection : DetectionResult) (pm : PackageManagerInfo) (op : String) :
    OpResult :=
  { success := true, framework := detection.framework,
    frameworkName := detection.config.name, packageManager := pm.name, operation := op,
    command := none, exitCode := none, output := none, errorField := none,
    healthy := none, processRunning := none, port := none, url := none,
    logFile := none, killResults := none, logs := none }

/-- The `switch (operation)` dispatch, wrapped by the inner `try`: an `exec`
result of `none` on an unguarded command throws to the inner catch, which
keeps the result fields mutated so far and flips `success` to false (the
caught message text is not modelled, a placeholder string stands in). -/
def opSwitch (op : String) (req : OpRequest) (detection : DetectionResult)
    (pm : PackageManagerInfo) (exec : String → Option CmdResult) (res0 : OpResult) :
    OpResult :=
  if op = "install" then
    let installCmd := if !req.packages.isEmpty then
        getInstallCommand req.packages pm.name req.argsDev
      else pm.installCommand
    match exec installCmd with
    | none => { res0 with success := false, errorField := some "caught" }
    | some r => { res0 with
        command := some installCmd
        exitCode := some r.exitCode
        output := some r.stdout
        errorField := some r.stderr }
  else if op = "dev" ∨ op = "start" then
    match getCommand detection.framework .dev pm.name with
    | none => res0
    | some devCmd =>
      let startCmd := "sh -c " ++ dq ++ "nohup " ++ devCmd ++ " > /tmp/"
        ++ detection.framework ++ "-dev.log 2>&1 &" ++ dq
      match exec startCmd with
      | none => { res0 with success := false, errorField := some "caught" }
      | some sr =>
        let r1 := { res0 with
          command := some devCmd
          logFile := some ("/tmp/" ++ detection.framework ++ "-dev.log")
          port := some detection.config.devPort
          exitCode := some sr.exitCode }
        match exec (getHealthCheckCommand detection.framework none) with
        | none => { r1 with success := false, errorField := some "caught" }
        | some hr => { r1 with healthy := some (hr.exitCode == 0) }
  else if op = "build" then
    match getCommand detection.framework .build pm.name with
    | none => res0
    | some buildCmd =>
      match exec buildCmd with
      | none => { res0 with success := false, errorField := some "caught" }
      | some r => { res0 with
          command := some buildCmd
          exitCode := some r.exitCode
          output := some r.stdout
          errorField := some r.stderr }
  else if op = "test" then
    match getCommand detection.framework .test pm.name with
    | none => res0
    | some testCmd =>
      match exec (testCmd ++ " --watchAll=false --passWithNoTests") with
      | none => { res0 with success := false, errorField := some "caught" }
      | some r => { res0 with
          command := some testCmd
          exitCode := some r.exitCode
          output := some r.stdout
          errorField := some r.stderr }
  else if op = "lint" then
    match getCommand detection.framework .lint pm.name with
    | none => res0
    | some lintCmd =>
      match exec lintCmd with
      | none => { res0 with success := false, errorField := some "caught" }
      | some r => { res0 with
          command := some lintCmd
          exitCode := some r.exitCode
          output := some r.stdout
          errorField := some r.stderr }
  else if op = "clean" then
    match getCommand detection.framework .clean pm.name with
    | none => res0
    | some cleanCmd =>
      match exec cleanCmd with
      | none => { res0 with success := false, errorField := some "caught" }
      | some r => { res0 with
          command := some cleanCmd
          exitCode := some r.exitCode
          output := some r.stdout }
  else if op = "kill" ∨ op = "stop" then
    let results := (getProcessKillCommands detection.framework none).map (fun kc =>
      match exec kc with
      | some r => (kc, some r.exitCode)
      | none => (kc, (none : Option Int)))
    { res0 with killResults := some results }
  else if op = "status" ∨ op = "health" then
    match exec (getHealthCheckCommand detection.framework none) with
    | none => { res0 with success := false, errorField := some "caught" }
    | some hr =>
      let r1 := { res0 with
        healthy := some (hr.exitCode == 0)
        port := some detection.config.devPort
        url := some ("http://localhost:" ++ toString detection.config.devPort) }
      match exec ("ps aux | grep -v grep | grep " ++ dq
          ++ detection.config.devCommand ++ dq) with
      | none => { r1 with success := false, errorField := some "caught" }
      | some pr => { r1 with processRunning := some (pr.exitCode == 0) }
  else if op = "logs" then
    let lines := match req.argsLines with
      | some n => if n = 0 then 50 else n
      | none => 50
    let entries := (getLogTailCommand detection.framework lines).filterMap (fun lc =>
      match exec lc with
      | some r => if r.exitCode == 0 then some (lc, r.stdout) else none
      | none => none)
    { res0 with logs := some entries }
  else
    { res0 with success := false, errorField := some ("Unknown operation: " ++ op) }

/-- The operations POST handler.  `req = none` models `request.json()`
throwing, which lands in the outer catch; there the body is re-read, fails
again (already consumed), and the flag cleared is the placeholder name
`"unknown"`.  After the gates the flag for `op` is set, the switch runs under
the inner try, and lines 291–293 of the source unconditionally stamp
`lastOperationTime[op]` and clear `operationInProgress[op]`. -/
def operationPOST (s : OpState) (req : Option OpRequest) (now now2 : Nat)
    (exec : String → Option CmdResult) (parseM : String → Option Manifest) :
    OpState × OpOutcome :=
  if !s.hasProvider then (s, .noSandbox)
  else
    match req with
    | none =>
      ({ s with operationInProgress := updB s.operationInProgress "unknown" false },
       .serverError)
    | some r =>
      match truthyStr r.operation with
      | none => (s, .missingOperation)
      | some op =>
        if s.operationInProgress op && !r.force then (s, .alreadyInProgress)
        else if !(["status", "health", "logs"].contains op) && !r.force
            && decide ((now : Int) - s.lastOperationTime op < 3000) then
          (s, .cooldownResp ((3000 - ((now : Int) - s.lastOperationTime op) + 999) / 1000))
        else
          let s1 := { s with operationInProgress := updB s.operationInProgress op true }
          let detection := routeDetect exec parseM
          let pm := detectPackageManager (routeFileExists exec)
          let result := opSwitch op r detection pm exec (opBase detection pm op)
          let s2 := { s1 with
            lastOperationTime := updN s1.lastOperationTime op now2,
            operationInProgress := updB s1.operationInProgress op false }
          (s2, .done result)

/-! ### The monitor-dev-logs route (second half of
`src/app/api/restart-dev-server/route.ts`, GET) -/

/-- One pass of the per-line classifier chain over the accumulated
`(errors, warnings, info)` triple. -/
def classifyLine (framework ts : String)
    (acc : List ErrObj × List ErrObj × List ErrObj) (line : String) :
    List ErrObj × List ErrObj × List ErrObj :=
  let errors := acc.1
  let warnings := acc.2.1
  let info := acc.2.2
  let lower := jsToLower line
  if strContains lower "failed to resolve" || strContains lower "module not found"
      || strContains lower "cannot resolve" then
    match extractPackageFromImportError line framework with
    | some packageName =>
      -- JS truthiness guard `if (packageName)`: an empty extracted name
      -- (a "/"-rooted import path, whose first segment is "") is skipped
      -- exactly like a null one
      if packageName = "" then acc
      else
        let errorObj := { emptyErr with
          type := some "npm-missing"
          package := some packageName
          message := some ("Failed to resolve import " ++ dq ++ packageName ++ dq)
          file := some "Unknown"
          framework := some framework
          timestamp := some ts }
        if errors.any (fun e => e.package == some packageName) then acc
        else (errors ++ [errorObj], warnings, info)
    | none => acc
  else if strContains lower "syntaxerror" || strContains lower "syntax error" then
    (errors ++ [{ emptyErr with
      type := some "syntax-error"
      message := some (jsTrim line)
      framework := some framework
      timestamp := some ts }], warnings, info)
  else if strContains lower "type error" || hasTsDigit lower.toList then
    (errors ++ [{ emptyErr with
      type := some "type-error"
      message := some (jsTrim line)
      framework := some framework
      timestamp := some ts }], warnings, info)
  else if strContains lower "failed to compile" || strContains lower "build failed"
      || strContains lower "compilation failed" then
    (errors ++ [{ emptyErr with
      type := some "build-error"
      message := some (jsTrim line)
      framework := some framework
      timestamp := some ts }], warnings, info)
  else if strContains lower "warning" || strContains lower "warn" then
    (errors, warnings ++ [{ emptyErr with
      type := some "warning"
      message := some (jsTrim line)
      framework := some framework
      timestamp := some ts }], info)
  else if strContains lower "compiled successfully" || strContains lower "ready in"
      || strContains lower "local:" || strContains lower "network:" then
    (errors, warnings, info ++ [{ emptyErr with
      type := some "success"
      message := some (jsTrim line)
      framework := some framework
      timestamp := some ts }])
  else acc

/-- One log file: skipped unless `test -f` succeeds and `tail -100` succeeds;
any throw inside the per-file `try` abandons the file and keeps the
accumulator.  Non-blank-after-trim lines are classified in order. -/
def processLogFile (exec : String → Option CmdResult) (framework ts : String)
    (acc : List ErrObj × List ErrObj × List ErrObj) (logFile : String) :
    List ErrObj × List ErrObj × List ErrObj :=
  match exec ("test -f " ++ logFile) with
  | none => acc
  | some t =>
    if t.exitCode != 0 then acc
    else
      match exec ("tail -100 " ++ logFile) with
      | none => acc
      | some tl =>
        if tl.exitCode != 0 then acc
        else
          let logLines := (splitChar (Char.ofNat 10) tl.stdout).filter
            (fun l => jsTrim l != "")
          logLines.foldl (classifyLine framework ts) acc

/-- The raw `(errors, warnings, info)` collections of one monitoring run:
cache-file errors first, then the classified lines of each configured log
file in order. -/
def monitorCollect (exec : String → Option CmdResult)
    (parseC : String → Option (List ErrObj)) (framework ts : String) :
    List ErrObj × List ErrObj × List ErrObj :=
  let errors0 := loadCachedErrors exec parseC framework
  (getLogFilePaths framework).foldl (processLogFile exec framework ts) (errors0, [], [])

/-- The per-framework cache document written back by the route
(`info` is not persisted). -/
structure CacheDoc where
  errors : List ErrObj
  warnings : List ErrObj
  lastChecked : Nat
  framework : String
deriving DecidableEq

structure MonitorOut where
  framework : String
  frameworkName : String
  errors : List ErrObj
  warnings : List ErrObj
  info : List ErrObj
  written : Option CacheDoc
deriving DecidableEq

inductive MonitorResp where
  | noSandbox
  | ok (o : MonitorOut)
deriving DecidableEq

/-- The GET handler.  `writeThrows` models the cache-write echo command
throwing (swallowed by its `try`, so nothing is persisted but the response
is still produced). -/
def monitorGET (hasProvider : Bool) (exec : String → Option CmdResult)
    (parseM : String → Option Manifest) (parseC : String → Option (List ErrObj))
    (ts : String) (now2 : Nat) (writeThrows : Bool) : MonitorResp :=
  if !hasProvider then .noSandbox
  else
    let detection := routeDetect exec parseM
    let collected := monitorCollect exec parseC detection.framework ts
    let uniqueErrors := (mapDedup errKey collected.1).take 10
    let uniqueWarnings := (mapDedup warnKey collected.2.1).take 5
    let recentInfo := collected.2.2.drop (collected.2.2.length - 3)
    let cacheData : CacheDoc :=
      { errors := uniqueErrors, warnings := uniqueWarnings, lastChecked := now2,
        framework := detection.framework }
    .ok { framework := detection.framework
          frameworkName := detection.config.name
          errors := uniqueErrors
          warnings := uniqueWarnings
          info := recentInfo
          written := if writeThrows then none else some cacheData }

/-! ### `src/app/api/report-dev-error/route.ts` (POST) -/

structure ReportPayload where
  errMsg : Option String
  file : Option String
  line : JsNullable Int
  column : JsNullable Int
  stack : Option String
  rtype : Option String
deriving DecidableEq

/-- JS `x || null` on a number (`0` is falsy). -/
def jsOrNullI : JsNullable Int → JsNullable Int
  | .val n => if n = 0 then .null else .val n
  | _ => .null

/-- JS `s || d` on an optional string. -/
def truthyOr (o : Option String) (d : String) : String :=
  match o with
  | some s => if s = "" then d else s
  | none => d

/-- The `errorObj` the report route builds from the payload. -/
def mkReportRecord (p : ReportPayload) (msg framework ts : String) : ErrObj :=
  { type := some (truthyOr p.rtype "runtime-error")
    package := none
    message := some msg
    file := some (truthyOr p.file "Unknown")
    line := jsOrNullI p.line
    column := jsOrNullI p.column
    stack := match p.stack with
      | some s => if s = "" then none else some s
      | none => none
    framework := some framework
    timestamp := some ts
    reported := some true }

/-- The `===` triple check of the duplicate test
(`e.message === errorObj.message && e.file === errorObj.file &&
e.line === errorObj.line`). -/
def reportDupMatch (e r : ErrObj) : Bool :=
  e.message == r.message && e.file == r.file && JsNullable.strictEq e.line r.line

/-- `existingErrors` after the conditional push and 20-entry cap. -/
def reportFinalErrors (existing : List ErrObj) (errorObj : ErrObj) : List ErrObj :=
  if existing.any (fun e => reportDupMatch e errorObj) then existing
  else
    let pushed := existing ++ [errorObj]
    if pushed.length > 20 then pushed.drop (pushed.length - 20) else pushed

inductive ReportResp where
  | noSandbox
  | serverError
  | missingError
  | ok (isDuplicate : Bool) (totalErrors : Nat) (written : Option (List ErrObj))
deriving DecidableEq

/-- The report POST handler.  `payload = none` models `request.json()`
throwing (outer catch, 500).  `cacheWriteThrows` models the cache-write echo
throwing (swallowed; nothing persisted).  The log-file append has no
observable effect on the modelled outputs and is not traced. -/
def reportPOST (hasProvider : Bool) (payload : Option ReportPayload)
    (exec : String → Option CmdResult) (parseM : String → Option Manifest)
    (parseC : String → Option (List ErrObj)) (ts : String)
    (cacheWriteThrows : Bool) : ReportResp :=
  if !hasProvider then .noSandbox
  else
    match payload with
    | none => .serverError
    | some p =>
      match truthyStr p.errMsg with
      | none => .missingError
      | some msg =>
        let detection := routeDetect exec parseM
        let errorObj := mkReportRecord p msg detection.framework ts
        let existingErrors := loadCachedErrors exec parseC detection.framework
        let isDuplicate := existingErrors.any (fun e => reportDupMatch e errorObj)
        let finalErrors := reportFinalErrors existingErrors errorObj
        .ok isDuplicate finalErrors.length
          (if cacheWriteThrows then none else some finalErrors)

/-! ## Helper lemmas -/

theorem splitCharAux_ne_nil (sep : Char) (l cur : List Char) :
    splitCharAux sep l cur ≠ [] := by
  induction l generalizing cur with
  | nil => simp [splitCharAux]
  | cons c rest ih =>
    simp only [splitCharAux]
    split
    · simp
    · exact ih _

theorem splitCharAux_singleton (sep : Char) (l : List Char) :
    ∀ cur x, splitCharAux sep l cur = [x] → x = String.mk (cur.reverse ++ l) := by
  induction l with
  | nil =>
    intro cur x h
    simp [splitCharAux] at h
    simp [h]
  | cons c rest ih =>
    intro cur x h
    simp only [splitCharAux] at h
    split at h
    · rename_i hc
      have := splitCharAux_ne_nil sep rest []
      simp at h
      exact absurd h.2 this
    · have := ih (c :: cur) x h
      simpa using this

theorem stringMk_toList (s : String) : String.mk s.toList = s := by
  cases s
  rfl

theorem splitChar_singleton (sep : Char) (s x : String) :
    splitChar sep s = [x] → x = s := by
  intro h
  have := splitCharAux_singleton sep s.toList [] x h
  simpa [stringMk_toList] using this

theorem headD_of_ne_nil (l : List α) (d : α) (h : l ≠ []) :
    l.head? = some (l.headD d) := by
  cases l with
  | nil => exact absurd rfl h
  | cons a t => rfl

theorem mem_upsert (k : String) (x : α) (acc : List (String × α)) (p : String × α)
    (hp : p ∈ upsert k x acc) : p ∈ acc ∨ p = (k, x) := by
  induction acc with
  | nil => simp [upsert] at hp; simp [hp]
  | cons q rest ih =>
    simp only [upsert] at hp
    split at hp
    · rcases List.mem_cons.1 hp with h | h
      · right; simp [h]
      · left; exact List.mem_cons_of_mem q h
    · rcases List.mem_cons.1 hp with h | h
      · left; exact h ▸ List.mem_cons_self q rest
      · rcases ih h with h2 | h2
        · left; exact List.mem_cons_of_mem q h2
        · right; exact h2

theorem upsert_wf (key : α → String) (x : α) (acc : List (String × α))
    (hwf : ∀ p ∈ acc, p.1 = key p.2) :
    ∀ p ∈ upsert (key x) x acc, p.1 = key p.2 := by
  intro p hp
  rcases mem_upsert (key x) x acc p hp with h | h
  · exact hwf p h
  · simp [h]

theorem upsert_keys_nodup (k : String) (x : α) (acc : List (String × α))
    (hnd : (acc.map Prod.fst).Nodup) :
    ((upsert k x acc).map Prod.fst).Nodup := by
  induction acc with
  | nil => simp [upsert]
  | cons q rest ih =>
    simp only [List.map_cons, List.nodup_cons] at hnd
    simp only [upsert]
    split
    · rename_i hq
      simp only [List.map_cons, List.nodup_cons]
      exact ⟨by rw [← hq]; exact hnd.1, hnd.2⟩
    · rename_i hq
      simp only [List.map_cons, List.nodup_cons]
      constructor
      · intro hmem
        rcases List.mem_map.1 hmem with ⟨p, hp, hpk⟩
        rcases mem_upsert k x rest p hp with h | h
        · exact hnd.1 (List.mem_map.2 ⟨p, h, hpk⟩)
        · apply hq; rw [← hpk, h]
      · exact ih hnd.2

theorem filter_snd_nil (key : α → String) (c : String) (acc : List (String × α))
    (hwf : ∀ p ∈ acc, p.1 = key p.2) (hno : ∀ p ∈ acc, p.1 ≠ c) :
    (acc.map Prod.snd).filter (fun y => key y == c) = [] := by
  induction acc with
  | nil => simp
  | cons q rest ih =>
    have h1 : ¬(key q.2 == c) = true := by
      have hw := hwf q (List.mem_cons_self q rest)
      have h2 := hno q (List.mem_cons_self q rest)
      simp [← hw]
      exact h2
    simp only [List.map_cons, List.filter_cons, if_neg h1]
    exact ih (fun p hp => hwf p (List.mem_cons_of_mem q hp))
      (fun p hp => hno p (List.mem_cons_of_mem q hp))

theorem upsert_filter (key : α → String) (x : α) (c : String) (acc : List (String × α))
    (hwf : ∀ p ∈ acc, p.1 = key p.2) (hnd : (acc.map Prod.fst).Nodup) :
    ((upsert (key x) x acc).map Prod.snd).filter (fun y => key y == c) =
      if key x = c then [x]
      else (acc.map Prod.snd).filter (fun y => key y == c) := by
  induction acc with
  | nil =>
    by_cases h : key x = c
    · simp [upsert, h]
    · simp [upsert, h]
  | cons q rest ih =>
    have hwq : q.1 = key q.2 := hwf q (List.mem_cons_self q rest)
    have hwfr : ∀ p ∈ rest, p.1 = key p.2 :=
      fun p hp => hwf p (List.mem_cons_of_mem q hp)
    simp only [List.map_cons, List.nodup_cons] at hnd
    simp only [upsert]
    split
    · rename_i hq
      -- q.1 = key x : the entry is replaced in place
      by_cases h : key x = c
      · have hrest : (rest.map Prod.snd).filter (fun y => key y == c) = [] := by
          apply filter_snd_nil key c rest hwfr
          intro p hp hpc
          exact hnd.1 (List.mem_map.2 ⟨p, hp, by rw [hpc, ← h, ← hq]⟩)
        simp [h, hrest]
      · have hqc : ¬(key q.2 == c) = true := by
          simp [← hwq, hq]
          exact h
        simp only [List.map_cons, List.filter_cons,
          if_neg (show ¬(key x == c) = true by simpa using h), if_neg hqc, if_neg h]
    · rename_i hq
      by_cases h : key x = c
      · have hqc : ¬(key q.2 == c) = true := by
          simp [← hwq]
          intro hcon
          exact hq (by rw [hcon, ← h])
        simp only [List.map_cons, List.filter_cons, if_neg hqc,
          ih hwfr hnd.2, if_pos h]
      · simp only [List.map_cons, List.filter_cons, ih hwfr hnd.2, if_neg h]

theorem dedupFold_filter (key : α → String) (c : String) (xs : List α) :
    ∀ acc : List (String × α), (∀ p ∈ acc, p.1 = key p.2) →
    (acc.map Prod.fst).Nodup →
    ((dedupFold key xs acc).map Prod.snd).filter (fun y => key y == c) =
      match (xs.filter (fun y => key y == c)).getLast? with
      | some y => [y]
      | none => (acc.map Prod.snd).filter (fun y => key y == c) := by
  induction xs with
  | nil => intro acc hwf hnd; simp [dedupFold]
  | cons x rest ih =>
    intro acc hwf hnd
    have step : dedupFold key (x :: rest) acc
        = dedupFold key rest (upsert (key x) x acc) := by
      simp [dedupFold]
    rw [step, ih (upsert (key x) x acc) (upsert_wf key x acc hwf)
      (upsert_keys_nodup (key x) x acc hnd)]
    rw [upsert_filter key x c acc hwf hnd]
    simp only [List.filter_cons]
    by_cases h : key x = c
    · simp only [if_pos (show (key x == c) = true by simpa using h), if_pos h]
      cases hr : rest.filter (fun y => key y == c) with
      | nil => simp
      | cons z zs =>
        rw [List.getLast?_cons_cons]
        cases hg : (z :: zs).getLast? with
        | none => simp at hg
        | some w => rfl
    · simp only [if_neg (show ¬(key x == c) = true by simpa using h), if_neg h]

theorem mapDedup_filter (key : α → String) (xs : List α) (c : String) :
    (mapDedup key xs).filter (fun y => key y == c) =
      ((xs.filter (fun y => key y == c)).getLast?).toList := by
  have := dedupFold_filter key c xs [] (by simp) (by simp)
  simp only [mapDedup]
  rw [this]
  cases h : (xs.filter (fun y => key y == c)).getLast? with
  | none => simp
  | some y => simp

theorem getLast?_mem' (l : List α) (a : α) (h : l.getLast? = some a) : a ∈ l := by
  induction l with
  | nil => simp at h
  | cons x t ih =>
    cases t with
    | nil => simp at h; simp [h]
    | cons y s =>
      rw [List.getLast?_cons_cons] at h
      exact List.mem_cons_of_mem x (ih h)

theorem mapDedup_retains_last (key : α → String) (xs : List α) (x : α)
    (hx : x ∈ mapDedup key xs) :
    (xs.filter (fun y => key y == key x)).getLast? = some x := by
  have hmem : x ∈ (mapDedup key xs).filter (fun y => key y == key x) :=
    List.mem_filter.2 ⟨hx, by simp⟩
  rw [mapDedup_filter] at hmem
  cases h : (xs.filter (fun y => key y == key x)).getLast? with
  | none => rw [h] at hmem; simp at hmem
  | some y =>
    rw [h] at hmem
    have hxy : x = y := by simpa using hmem
    rw [hxy]

theorem mapDedup_mem (key : α → String) (xs : List α) (x : α)
    (hx : x ∈ mapDedup key xs) : x ∈ xs := by
  have h1 := mapDedup_retains_last key xs x hx
  have hm := getLast?_mem' _ _ h1
  exact (List.mem_filter.1 hm).1

theorem nodup_map_of_filter_le_one (key : α → String) (l : List α)
    (h : ∀ c, (l.filter (fun y => key y == c)).length ≤ 1) :
    (l.map key).Nodup := by
  induction l with
  | nil => simp
  | cons x t ih =>
    simp only [List.map_cons, List.nodup_cons]
    constructor
    · intro hmem
      rcases List.mem_map.1 hmem with ⟨y, hy, hyk⟩
      have h1 : y ∈ t.filter (fun z => key z == key x) :=
        List.mem_filter.2 ⟨hy, by simp [hyk]⟩
      have h2 := h (key x)
      rw [List.filter_cons, if_pos (by simp), List.length_cons] at h2
      have h3 : 1 ≤ (t.filter (fun z => key z == key x)).length :=
        List.length_pos.2 (fun hnil => by rw [hnil] at h1; simp at h1)
      omega
    · apply ih
      intro c
      have h2 := h c
      rw [List.filter_cons] at h2
      split at h2
      · rw [List.length_cons] at h2; omega
      · exact h2

theorem mapDedup_keys_nodup (key : α → String) (xs : List α) :
    ((mapDedup key xs).map key).Nodup := by
  apply nodup_map_of_filter_le_one
  intro c
  rw [mapDedup_filter]
  cases (xs.filter (fun y => key y == c)).getLast? <;> simp

/-! ## Claims -/

/-- C4: `detect` called with no manifest, no `fileExists` capability and no
`runCommand` capability never fails (the embedding is a total function) and
returns the fixed fallback: framework `vite`, confidence exactly `0`, and the
single evidence string saying no framework was detected. -/
theorem detect_no_capabilities_fallback :
    detectFramework none none none =
      { framework := "vite", confidence := 0, config := viteConfig,
        evidence := ["No clear framework detected, defaulting to Vite"] } := by
  decide

/-- C8: on a message matched by the framework's import-error pattern,
`extractPackageFromImportError` skips captured paths starting with `.`,
keeps the first two `/`-segments of paths starting with `@`, and the first
segment otherwise; in particular the Next.js pattern maps
`Module not found: Can't resolve '@scope/pkg/sub'` to `@scope/pkg` and
`...'./local'` to nothing. -/
theorem extract_package_from_import_error :
    (∀ fw cfg msg ipath, getFrameworkConfig fw = some cfg →
      matchCapture cfg.importPat msg = some ipath →
      extractPackageFromImportError msg fw =
        (if jsStartsWith ipath "." then none
         else if jsStartsWith ipath "@" then
           some (joinSep "/" ((splitChar '/' ipath).take 2))
         else some ((splitChar '/' ipath).headD ""))) ∧
    extractPackageFromImportError
      ("Module not found: Can" ++ sq ++ "t resolve " ++ sq ++ "@scope/pkg/sub" ++ sq)
      "nextjs" = some "@scope/pkg" ∧
    extractPackageFromImportError
      ("Module not found: Can" ++ sq ++ "t resolve " ++ sq ++ "./local" ++ sq)
      "nextjs" = none := by
  refine ⟨?_, by decide, by decide⟩
  intro fw cfg msg ipath hcfg hcap
  simp only [extractPackageFromImportError, hcfg, hcap]
  cases h1 : jsStartsWith ipath "." with
  | true => simp
  | false =>
    simp only [Bool.false_eq_true, if_false]
    cases h2 : jsStartsWith ipath "@" with
    | false => simp
    | true =>
      simp only [if_true]
      by_cases h3 : (splitChar '/' ipath).length ≥ 2
      · simp [h3]
      · simp only [if_neg h3]
        cases hp : splitChar '/' ipath with
        | nil => exact absurd hp (splitCharAux_ne_nil '/' ipath.toList [])
        | cons z zs =>
          cases zs with
          | nil =>
            have hz : z = ipath := splitChar_singleton '/' ipath z hp
            simp [joinSep, hz]
          | cons w ws =>
            rw [hp] at h3
            simp at h3

/-- Witness for C8: the general statement applied to the Vite pattern on a
concrete message, extracting the first segment of a plain path. -/
theorem extract_package_from_import_error_witness :
    extractPackageFromImportError
      ("Failed to resolve import " ++ dq ++ "lodash/fp" ++ dq) "vite" =
      some "lodash" := by
  have h := extract_package_from_import_error.1 "vite" viteConfig
    ("Failed to resolve import " ++ dq ++ "lodash/fp" ++ dq) "lodash/fp"
    (by decide) (by decide)
  rw [h]
  decide

/-- C9: for every registered framework, an action with a non-empty variant
list, and any package-manager id, `getCommand` returns the first variant
whose text starts with the package manager's name or run-command prefix,
falling back to the first variant when none matches or the package manager is
unknown; in particular `getCommand "nextjs" dev "yarn" = "yarn dev"` and
`getCommand "nextjs" test "unknownpm"` is the first listed test command. -/
theorem getCommand_selects_pm_variant :
    (∀ fwId mapping action cmds pmId,
      (fwId, mapping) ∈ frameworkCommands →
      mapping.get action = some cmds → cmds ≠ [] →
      getCommand fwId action pmId =
        some (match packageManagers.lookup pmId with
          | none => cmds.headD ""
          | some pmInfo =>
            (cmds.find? (fun cmd => jsStartsWith cmd pmInfo.name
              || jsStartsWith cmd pmInfo.runCommand)).getD (cmds.headD ""))) ∧
    getCommand "nextjs" .dev "yarn" = some "yarn dev" ∧
    getCommand "nextjs" .test "unknownpm" = some "npm test" := by
  refine ⟨?_, by decide, by decide⟩
  intro fwId mapping action cmds pmId hmem hget hne
  have hlookup : getFrameworkCommands fwId = some mapping := by
    simp only [frameworkCommands, List.mem_cons, List.not_mem_nil, or_false] at hmem
    rcases hmem with h | h | h
    all_goals
      rw [Prod.ext_iff] at h
      obtain ⟨h1, h2⟩ := h
      subst h1
      subst h2
      decide
  have hie : cmds.isEmpty = false := by
    cases cmds with
    | nil => exact absurd rfl hne
    | cons a t => rfl
  simp only [getCommand, hlookup, hget, hie, Bool.false_eq_true, if_false]
  have hhead : cmds.head? = some (cmds.headD "") := headD_of_ne_nil cmds "" hne
  cases hpm : packageManagers.lookup pmId with
  | none => dsimp only; simpa using hhead
  | some pmInfo =>
    dsimp only
    cases hf : cmds.find? (fun cmd => jsStartsWith cmd pmInfo.name
        || jsStartsWith cmd pmInfo.runCommand) with
    | none => simpa using hhead
    | some c => simp

/-- Witness for C9: the general statement applied to a registered framework
and a registered package manager with no matching variant (cra has no pnpm
variants), exercising the first-variant fallback. -/
theorem getCommand_selects_pm_variant_witness :
    getCommand "cra" .build "pnpm" = some "npm run build" := by
  have h := getCommand_selects_pm_variant.1 "cra" craCommands .build
    ["npm run build", "yarn build"] "pnpm" (by decide) (by decide) (by decide)
  rw [h]
  decide

/-- C10: `detectPackageManager` walks the registry in order (npm, yarn,
pnpm), returns the first profile whose lock file exists and the npm profile
when none does; with both `yarn.lock` and `pnpm-lock.yaml` present, yarn is
chosen. -/
theorem detectPackageManager_registry_order :
    (∀ fe : String → Bool,
      detectPackageManager fe =
        (if fe "package-lock.json" then pmNpm
         else if fe "yarn.lock" then pmYarn
         else if fe "pnpm-lock.yaml" then pmPnpm
         else pmNpm)) ∧
    detectPackageManager (fun p => p == "yarn.lock" || p == "pnpm-lock.yaml") =
      pmYarn := by
  refine ⟨?_, by decide⟩
  intro fe
  unfold detectPackageManager packageManagers
  cases h1 : fe "package-lock.json" <;> cases h2 : fe "yarn.lock" <;>
    cases h3 : fe "pnpm-lock.yaml" <;>
      simp [List.find?, pmNpm, pmYarn, pmPnpm, h1, h2, h3]

/-! ### C6: the monitor run's dedup / truncation / write-back

The collections the monitor route actually produces, factored for the
statement below. -/

def monitorCollected (exec : String → Option CmdResult)
    (parseM : String → Option Manifest) (parseC : String → Option (List ErrObj))
    (ts : String) : List ErrObj × List ErrObj × List ErrObj :=
  monitorCollect exec parseC (routeDetect exec parseM).framework ts

set_option maxHeartbeats 1600000 in
/-- C6 (amended): after every monitorLogs run, error dedup keys are unique
with the value of the *last* occurrence of each key retained (at the first
occurrence's position), warning keys likewise; the collections are truncated
to the *first* 10 deduplicated errors, the *first* 5 deduplicated warnings,
and the most recent 3 info entries; and the errors/warnings so produced are
exactly what is written back to the error-cache document (when the write does
not fail) before being returned. -/
theorem monitor_dedup_truncate_writeback (hp : Bool) (exec : String → Option CmdResult)
    (parseM : String → Option Manifest) (parseC : String → Option (List ErrObj))
    (ts : String) (now2 : Nat) (wt : Bool) (o : MonitorOut)
    (h : monitorGET hp exec parseM parseC ts now2 wt = .ok o) :
    o.errors = (mapDedup errKey (monitorCollected exec parseM parseC ts).1).take 10 ∧
    o.warnings = (mapDedup warnKey (monitorCollected exec parseM parseC ts).2.1).take 5 ∧
    o.info = (monitorCollected exec parseM parseC ts).2.2.drop
      ((monitorCollected exec parseM parseC ts).2.2.length - 3) ∧
    (o.errors.map errKey).Nodup ∧
    (o.warnings.map warnKey).Nodup ∧
    (∀ x ∈ o.errors, x ∈ (monitorCollected exec parseM parseC ts).1 ∧
      ((monitorCollected exec parseM parseC ts).1.filter
        (fun y => errKey y == errKey x)).getLast? = some x) ∧
    (∀ x ∈ o.warnings, x ∈ (monitorCollected exec parseM parseC ts).2.1 ∧
      ((monitorCollected exec parseM parseC ts).2.1.filter
        (fun y => warnKey y == warnKey x)).getLast? = some x) ∧
    (∀ d, o.written = some d → d.errors = o.errors ∧ d.warnings = o.warnings) := by
  cases hp with
  | false => simp [monitorGET] at h
  | true =>
    simp only [monitorGET, Bool.not_true, Bool.false_eq_true, if_false,
      MonitorResp.ok.injEq] at h
    subst h
    refine ⟨rfl, rfl, rfl, ?_, ?_, ?_, ?_, ?_⟩
    · rw [List.map_take]
      exact (mapDedup_keys_nodup errKey _).sublist (List.take_sublist _ _)
    · rw [List.map_take]
      exact (mapDedup_keys_nodup warnKey _).sublist (List.take_sublist _ _)
    · intro x hx
      have hx' : x ∈ mapDedup errKey (monitorCollected exec parseM parseC ts).1 :=
        (List.take_sublist _ _).subset hx
      exact ⟨mapDedup_mem _ _ _ hx', mapDedup_retains_last _ _ _ hx'⟩
    · intro x hx
      have hx' : x ∈ mapDedup warnKey (monitorCollected exec parseM parseC ts).2.1 :=
        (List.take_sublist _ _).subset hx
      exact ⟨mapDedup_mem _ _ _ hx', mapDedup_retains_last _ _ _ hx'⟩
    · intro d hd
      cases wt with
      | true => simp at hd
      | false =>
        simp only [Bool.false_eq_true, if_false, Option.some.injEq] at hd
        subst hd
        exact ⟨rfl, rfl⟩

/-- Inputs refuting C6 as stated: the cache file holds two records with the
same dedup key (differing in `file`) followed by ten records with fresh keys;
no log file exists, so detection falls back to vite and the collections are
exactly the cache contents. -/
def ceA1 : ErrObj :=
  { emptyErr with type := some "syntax-error", message := some "dup",
                  file := some "old.js" }

def ceA2 : ErrObj :=
  { emptyErr with type := some "syntax-error", message := some "dup",
                  file := some "new.js" }

def ceB (i : Nat) : ErrObj :=
  { emptyErr with type := some "syntax-error", message := some ("m" ++ toString i) }

def ceCache : List ErrObj := [ceA1, ceA2] ++ (List.range 10).map ceB

def ceExec : String → Option CmdResult := fun c =>
  if c = "cat /tmp/vite-errors.json" then
    some { stdout := "CACHE", stderr := "", exitCode := 0 }
  else some { stdout := "", stderr := "", exitCode := 1 }

def ceParseM : String → Option Manifest := fun _ => none

def ceParseC : String → Option (List ErrObj) := fun s =>
  if s = "CACHE" then some ceCache else none

def ceOutErrors : List ErrObj :=
  ceA2 :: (List.range 9).map ceB

def ceOut : MonitorOut :=
  { framework := "vite", frameworkName := "Vite", errors := ceOutErrors,
    warnings := [], info := [],
    written := some { errors := ceOutErrors, warnings := [], lastChecked := 77,
                      framework := "vite" } }

/-- Counterexample to C6 as stated: on the concrete run above the route
returns the *last* occurrence `ceA2` for the duplicated key (the claim says
the first occurrence `ceA1` is retained) and keeps the *first* ten
deduplicated errors, dropping the most recent record `ceB 9` (the claim says
the most recent 10 are retained). -/
theorem monitor_dedup_counterexample :
    monitorGET true ceExec ceParseM ceParseC "T" 77 false = .ok ceOut ∧
    ceA1 ∈ ceCache ∧ ceB 9 ∈ ceCache ∧
    ceA1 ∉ ceOut.errors ∧ ceB 9 ∉ ceOut.errors ∧ ceA2 ∈ ceOut.errors := by
  decide

/-- Witness for the amended C6 theorem at the concrete run above. -/
theorem monitor_dedup_truncate_writeback_witness :
    (ceOut.errors.map errKey).Nodup ∧
    ceOut.errors = (mapDedup errKey (monitorCollected ceExec ceParseM ceParseC "T").1).take 10 :=
  ⟨(monitor_dedup_truncate_writeback true ceExec ceParseM ceParseC "T" 77 false ceOut
      (by decide)).2.2.2.1,
   (monitor_dedup_truncate_writeback true ceExec ceParseM ceParseC "T" 77 false ceOut
      (by decide)).1⟩

/-! ### C5: a primary dependency with no competing signals wins detection -/

theorem score_ge_30 (cfg : FrameworkConfig) (m : Manifest)
    (fe : Option (String → Bool)) (rc : Option (String → CmdResult)) (d : String)
    (hd : d ∈ cfg.packagePatterns.dependencies) (hm : m.deps.contains d = true) :
    30 ≤ (frameworkScore cfg (some m) fe rc).1 := by
  have hmem : d ∈ primaryHits cfg (some m) := by
    simp only [primaryHits]
    exact List.mem_filter.2 ⟨hd, hm⟩
  have hlen : 1 ≤ (primaryHits cfg (some m)).length :=
    List.length_pos.2 (List.ne_nil_of_mem hmem)
  simp only [frameworkScore]
  omega

/-- `detectFramework` written out over the three-entry registry. -/
theorem detectFramework_best (pj : Option Manifest) (fe : Option (String → Bool))
    (rc : Option (String → CmdResult)) :
    detectFramework pj fe rc =
      (let rN : Scored := { framework := "nextjs"
                            score := (frameworkScore nextjsConfig pj fe rc).1
                            evidence := (frameworkScore nextjsConfig pj fe rc).2 }
       let rV : Scored := { framework := "vite"
                            score := (frameworkScore viteConfig pj fe rc).1
                            evidence := (frameworkScore viteConfig pj fe rc).2 }
       let rC : Scored := { framework := "cra"
                            score := (frameworkScore craConfig pj fe rc).1
                            evidence := (frameworkScore craConfig pj fe rc).2 }
       let best := pickBest rN [rV, rC]
       if best.score = 0 then fallbackResult
       else { framework := best.framework,
              confidence := min ((best.score : Rat) / 100) 1,
              config := (getFrameworkConfig best.framework).getD viteConfig,
              evidence := best.evidence }) := rfl

theorem pickBest_first (a b c : Scored) (hb : b.score = 0) (hc : c.score = 0) :
    pickBest a [b, c] = a := by
  simp only [pickBest, hb, hc]
  rw [if_neg (show ¬ 0 > a.score by omega), if_neg (show ¬ 0 > a.score by omega)]

theorem pickBest_mid (a b c : Scored) (ha : a.score = 0) (hb : 0 < b.score)
    (hc : c.score = 0) : pickBest a [b, c] = b := by
  simp only [pickBest, ha, hc]
  rw [if_pos (show b.score > 0 by omega), if_neg (show ¬ 0 > b.score by omega)]

theorem pickBest_last (a b c : Scored) (ha : a.score = 0) (hb : b.score = 0)
    (hc : 0 < c.score) : pickBest a [b, c] = c := by
  simp only [pickBest, ha, hb]
  rw [if_neg (show ¬ (0 : Nat) > 0 by omega), if_pos (show c.score > a.score by omega)]

/-- C5: when the manifest holds at least one of a framework's primary
dependency names and every other registered framework scores zero (no
signal of any other framework), `detect` selects that framework; its
confidence is `min (score / 100) 1`, which is at least `3 / 10`. -/
theorem detect_primary_dep_selects (m : Manifest) (fe : Option (String → Bool))
    (rc : Option (String → CmdResult)) (fw : String) (cfg : FrameworkConfig)
    (hmem : (fw, cfg) ∈ frameworkConfigs)
    (hdep : ∃ d ∈ cfg.packagePatterns.dependencies, m.deps.contains d = true)
    (hothers : ∀ p ∈ frameworkConfigs, p.1 ≠ fw →
      (frameworkScore p.2 (some m) fe rc).1 = 0) :
    (detectFramework (some m) fe rc).framework = fw ∧
    (detectFramework (some m) fe rc).confidence =
      min (((frameworkScore cfg (some m) fe rc).1 : Rat) / 100) 1 ∧
    (3 : Rat) / 10 ≤ (detectFramework (some m) fe rc).confidence := by
  obtain ⟨d, hd, hm⟩ := hdep
  have h30 := score_ge_30 cfg m fe rc d hd hm
  have hconf : ∀ sc : Nat, 30 ≤ sc → (3 : Rat) / 10 ≤ min ((sc : Rat) / 100) 1 := by
    intro sc hsc
    apply le_min
    · have h1 : (30 : Rat) ≤ (sc : Rat) := by exact_mod_cast hsc
      calc (3 : Rat) / 10 = 30 / 100 := by norm_num
        _ ≤ (sc : Rat) / 100 := by gcongr
    · norm_num
  simp only [frameworkConfigs, List.mem_cons, List.not_mem_nil, or_false] at hmem
  rcases hmem with h | h | h
  all_goals
    rw [Prod.ext_iff] at h
    obtain ⟨hfw, hcfg⟩ := h
    dsimp only at hfw hcfg
    subst hfw
    subst hcfg
  · have hv : (frameworkScore viteConfig (some m) fe rc).1 = 0 :=
      hothers ("vite", viteConfig) (by simp [frameworkConfigs]) (by decide)
    have hc : (frameworkScore craConfig (some m) fe rc).1 = 0 :=
      hothers ("cra", craConfig) (by simp [frameworkConfigs]) (by decide)
    have hne : ¬ (frameworkScore nextjsConfig (some m) fe rc).1 = 0 := by omega
    rw [detectFramework_best]
    dsimp only
    rw [pickBest_first _ _ _ hv hc, if_neg hne]
    exact ⟨rfl, rfl, hconf _ h30⟩
  · have hn : (frameworkScore nextjsConfig (some m) fe rc).1 = 0 :=
      hothers ("nextjs", nextjsConfig) (by simp [frameworkConfigs]) (by decide)
    have hc : (frameworkScore craConfig (some m) fe rc).1 = 0 :=
      hothers ("cra", craConfig) (by simp [frameworkConfigs]) (by decide)
    have hne : ¬ (frameworkScore viteConfig (some m) fe rc).1 = 0 := by omega
    rw [detectFramework_best]
    dsimp only
    rw [pickBest_mid _ _ _ hn
      (show 0 < (frameworkScore viteConfig (some m) fe rc).1 by omega) hc, if_neg hne]
    exact ⟨rfl, rfl, hconf _ h30⟩
  · have hn : (frameworkScore nextjsConfig (some m) fe rc).1 = 0 :=
      hothers ("nextjs", nextjsConfig) (by simp [frameworkConfigs]) (by decide)
    have hv : (frameworkScore viteConfig (some m) fe rc).1 = 0 :=
      hothers ("vite", viteConfig) (by simp [frameworkConfigs]) (by decide)
    have hne : ¬ (frameworkScore craConfig (some m) fe rc).1 = 0 := by omega
    rw [detectFramework_best]
    dsimp only
    rw [pickBest_last _ _ _ hn hv
      (show 0 < (frameworkScore craConfig (some m) fe rc).1 by omega), if_neg hne]
    exact ⟨rfl, rfl, hconf _ h30⟩

/-- The witness manifest for C5: only the primary dependency `next`. -/
def wNextManifest : Manifest :=
  { deps := ["next"]
    hasDevScript := false
    hasBuildScript := false }

/-- Witness for C5: a manifest holding only the primary dependency `next`
(no other framework signals, no capabilities) selects nextjs with
confidence at least `3 / 10`. -/
theorem detect_primary_dep_selects_witness :
    (detectFramework (some wNextManifest) none none).framework = "nextjs" ∧
    (3 : Rat) / 10 ≤ (detectFramework (some wNextManifest) none none).confidence := by
  have h := detect_primary_dep_selects wNextManifest
    none none "nextjs" nextjsConfig (by decide)
    ⟨"next", by decide, by decide⟩
    (by decide)
  exact ⟨h.1, h.2.2⟩

/-! ### C7: duplicate suppression and the 20-entry cap of `reportError` -/

theorem reportFinal_eq_drop (existing : List ErrObj) (eo : ErrObj)
    (h : existing.any (fun e => reportDupMatch e eo) = false) :
    reportFinalErrors existing eo = (existing ++ [eo]).drop (existing.length + 1 - 20) := by
  unfold reportFinalErrors
  rw [h]
  simp only [Bool.false_eq_true, if_false]
  by_cases h2 : (existing ++ [eo]).length > 20
  · rw [if_pos h2]
    congr 1
    simp
  · rw [if_neg h2]
    have h3 : existing.length + 1 - 20 = 0 := by
      simp only [List.length_append, List.length_singleton] at h2
      omega
    rw [h3, List.drop_zero]

theorem reportFinal_len (existing : List ErrObj) (eo : ErrObj)
    (h : existing.any (fun e => reportDupMatch e eo) = false) :
    (reportFinalErrors existing eo).length = min (existing.length + 1) 20 := by
  rw [reportFinal_eq_drop existing eo h]
  simp only [List.length_drop, List.length_append, List.length_singleton]
  omega

/-- C7: a `reportError` call whose `{message, file, line}` triple matches an
error already in the framework's cache answers `isDuplicate = true` with
`totalErrors` and the persisted list unchanged; a call with no match appends
the record, persists the list capped to the most recent 20 entries (oldest
dropped first; the length is `min (n + 1) 20`), and answers
`isDuplicate = false`. -/
theorem report_duplicate_and_cap
    (exec : String → Option CmdResult) (parseM : String → Option Manifest)
    (parseC : String → Option (List ErrObj)) (ts : String) (cw : Bool)
    (p : ReportPayload) (msg fw : String) (existing : List ErrObj) (eo : ErrObj)
    (hmsg : truthyStr p.errMsg = some msg)
    (hfw : (routeDetect exec parseM).framework = fw)
    (hex : loadCachedErrors exec parseC fw = existing)
    (heo : mkReportRecord p msg fw ts = eo) :
    (existing.any (fun e => reportDupMatch e eo) = true →
      reportPOST true (some p) exec parseM parseC ts cw =
        .ok true existing.length (if cw then none else some existing)) ∧
    (existing.any (fun e => reportDupMatch e eo) = false →
      reportPOST true (some p) exec parseM parseC ts cw =
        .ok false ((existing ++ [eo]).drop (existing.length + 1 - 20)).length
          (if cw then none else some ((existing ++ [eo]).drop (existing.length + 1 - 20))) ∧
      ((existing ++ [eo]).drop (existing.length + 1 - 20)).length =
        min (existing.length + 1) 20) := by
  subst hfw
  subst hex
  subst heo
  constructor
  · intro hdup
    have hfin : reportFinalErrors
        (loadCachedErrors exec parseC (routeDetect exec parseM).framework)
        (mkReportRecord p msg (routeDetect exec parseM).framework ts) =
        loadCachedErrors exec parseC (routeDetect exec parseM).framework := by
      unfold reportFinalErrors
      rw [hdup]
      simp
    simp only [reportPOST, Bool.not_true, Bool.false_eq_true, if_false, hmsg,
      hdup, hfin]
  · intro hnd
    have hdrop := reportFinal_eq_drop _ _ hnd
    refine ⟨?_, (hdrop ▸ reportFinal_len _ _ hnd)⟩
    simp only [reportPOST, Bool.not_true, Bool.false_eq_true, if_false, hmsg,
      hnd, hdrop]

/-- Concrete oracles for the C7 witness. -/
def oracleFail : String → Option CmdResult :=
  fun _ => some { stdout := "", stderr := "", exitCode := 1 }

def parseNoManifest : String → Option Manifest := fun _ => none

def wPayload : ReportPayload :=
  { errMsg := some "boom"
    file := some "a.js"
    line := .val 3
    column := .undef
    stack := none
    rtype := none }

def wRec : ErrObj := mkReportRecord wPayload "boom" "vite" "T"

def wExec : String → Option CmdResult := fun c =>
  if c = "cat /tmp/vite-errors.json" then
    some { stdout := "WC", stderr := "", exitCode := 0 }
  else some { stdout := "", stderr := "", exitCode := 1 }

def wParseC : String → Option (List ErrObj) := fun s =>
  if s = "WC" then some [wRec] else none

/-- Witness for C7: reporting the same `{message, file, line}` again is a
duplicate that leaves the one cached record in place; reporting it against an
empty cache appends it. -/
theorem report_duplicate_and_cap_witness :
    reportPOST true (some wPayload) wExec parseNoManifest wParseC "T" false =
      .ok true 1 (some [wRec]) ∧
    reportPOST true (some wPayload) oracleFail parseNoManifest wParseC "T" false =
      .ok false 1 (some [wRec]) := by
  constructor
  · exact ((report_duplicate_and_cap wExec parseNoManifest wParseC "T" false wPayload
      "boom" "vite" [wRec] wRec (by decide) (by decide) (by decide) rfl).1
        (by decide)).trans (by decide)
  · exact (((report_duplicate_and_cap oracleFail parseNoManifest wParseC "T" false wPayload
      "boom" "vite" [] wRec (by decide) (by decide) (by decide) rfl).2
        (by decide)).1).trans (by decide)

/-! ### C1, C2, C3: the restart route's gates and flag discipline -/

/-- Any restart call that answers `restarted` ran the body: the provider was
bound, the returned state has the in-progress flag cleared and the
last-restart timestamp stamped with the completion time. -/
theorem restart_success_state (s : RestartState) (now now2 nowErr : Nat)
    (exec : String → Option CmdResult) (parseM : String → Option Manifest)
    (rth : Bool) (f c : String) (prt : Nat)
    (h : (restartPOST s now now2 nowErr exec parseM rth).2.1 = .restarted f c prt) :
    s.hasProvider = true ∧
    (restartPOST s now now2 nowErr exec parseM rth).1 =
      { hasProvider := s.hasProvider
        providerHasRestart := s.providerHasRestart
        devRestartInProgress := false
        lastDevRestartTime := now2 } := by
  by_cases h1 : s.hasProvider = true
  case neg =>
    exfalso
    have h1f : s.hasProvider = false := by revert h1; cases s.hasProvider <;> simp
    unfold restartPOST at h
    rw [if_pos (by simp [h1f])] at h
    simp at h
  case pos =>
    refine ⟨h1, ?_⟩
    unfold restartPOST restartBody at h ⊢
    rw [if_neg (by simp [h1])] at h ⊢
    by_cases h2 : s.devRestartInProgress = true
    · rw [if_pos h2] at h
      simp at h
    · rw [if_neg h2] at h ⊢
      by_cases h3 : (s.lastDevRestartTime ≠ 0 ∧ (now : Int) - s.lastDevRestartTime < 5000)
      · rw [if_pos h3] at h
        simp at h
      · rw [if_neg h3] at h ⊢
        dsimp only at h ⊢
        by_cases h4 : s.providerHasRestart = true
        · rw [if_pos h4] at h ⊢
          by_cases h5 : rth = true
          · rw [if_pos h5] at h
            simp at h
          · rw [if_neg h5] at h ⊢
        · rw [if_neg h4] at h ⊢
          cases h6 : exec (startCommandFor (routeDetect exec parseM).framework
              (routeDetect exec parseM).config.devCommand) with
          | none =>
            rw [h6] at h
            simp at h
          | some cr => rfl

/-- C1: a second restart call arriving less than 5 seconds after a first
call completed successfully (provider bound, no restart in progress) answers
the successful cooldown outcome with the remaining whole seconds, issues no
sandbox call at all, and leaves the state — in particular the last-restart
timestamp — unchanged. -/
theorem restart_cooldown_second_call
    (s0 : RestartState) (now0 t1 ne0 : Nat) (e0 : String → Option CmdResult)
    (p0 : String → Option Manifest) (r0 : Bool) (f c : String) (prt : Nat)
    (now t2 ne2 : Nat) (e2 : String → Option CmdResult)
    (p2 : String → Option Manifest) (r2 : Bool)
    (h1 : (restartPOST s0 now0 t1 ne0 e0 p0 r0).2.1 = .restarted f c prt)
    (ht : 0 < t1) (_hle : t1 ≤ now) (hlt : (now : Int) - t1 < 5000) :
    restartPOST (restartPOST s0 now0 t1 ne0 e0 p0 r0).1 now t2 ne2 e2 p2 r2 =
      ((restartPOST s0 now0 t1 ne0 e0 p0 r0).1,
       .cooldown ((5000 - ((now : Int) - t1) + 999) / 1000), []) := by
  obtain ⟨hpv, hs1⟩ := restart_success_state s0 now0 t1 ne0 e0 p0 r0 f c prt h1
  rw [hs1]
  unfold restartPOST
  rw [hpv]
  simp only [Bool.not_true, Bool.false_eq_true, if_false]
  rw [if_pos (show t1 ≠ 0 ∧ (now : Int) - (t1 : Nat) < 5000 from ⟨by omega, hlt⟩)]

/-- Witness inputs for the restart claims: a provider with a native restart
primitive, every sandbox command returning exit code 1. -/
def wRestartS0 : RestartState :=
  { hasProvider := true
    providerHasRestart := true
    devRestartInProgress := false
    lastDevRestartTime := 0 }

/-- Witness for C1: a restart at t=10000 completes at t=11000; a second call
at t=12000 reports a 4-second cooldown, unchanged state, empty trace. -/
theorem restart_cooldown_second_call_witness :
    restartPOST (restartPOST wRestartS0 10000 11000 0 oracleFail parseNoManifest
        false).1 12000 13000 0 oracleFail parseNoManifest false =
      ((restartPOST wRestartS0 10000 11000 0 oracleFail parseNoManifest false).1,
       .cooldown 4, []) := by
  exact (restart_cooldown_second_call wRestartS0 10000 11000 0 oracleFail
    parseNoManifest false "vite" "npm run dev" 5173 12000 13000 0 oracleFail
    parseNoManifest false (by decide) (by decide) (by decide) (by decide)).trans
    (by decide)

/-- C2: a restart call arriving while the in-progress flag is set (and a
provider is bound) answers the successful already-in-progress outcome,
issues no sandbox call at all and leaves the state unchanged. -/
theorem restart_already_in_progress (s : RestartState) (now now2 nowErr : Nat)
    (exec : String → Option CmdResult) (parseM : String → Option Manifest)
    (rth : Bool) (hpv : s.hasProvider = true) (hip : s.devRestartInProgress = true) :
    restartPOST s now now2 nowErr exec parseM rth = (s, .alreadyInProgress, []) := by
  unfold restartPOST
  rw [hpv, hip]
  simp

/-- Witness for C2. -/
theorem restart_already_in_progress_witness :
    restartPOST (⟨true, false, true, 0⟩ : RestartState)
      1 2 3 oracleFail parseNoManifest false =
      ((⟨true, false, true, 0⟩ : RestartState), .alreadyInProgress, []) :=
  restart_already_in_progress _ 1 2 3 oracleFail parseNoManifest false rfl rfl

/-- C3: an operation that set its own in-progress flag clears it again on
every exit path.  For the restart route: whenever the flag is clear at entry
(the only situation in which the handler sets it) it is clear again on
return, across the success, fallback-start-failure and provider-restart-throw
paths alike.  For every named operation of the operations route: whenever
the flag for that operation is clear at entry, it is clear again when the
handler returns. -/
theorem inprogress_flag_cleared :
    (∀ (s : RestartState) (now now2 nowErr : Nat)
       (exec : String → Option CmdResult) (parseM : String → Option Manifest)
       (rth : Bool), s.devRestartInProgress = false →
       (restartPOST s now now2 nowErr exec parseM rth).1.devRestartInProgress = false) ∧
    (∀ (s : OpState) (r : OpRequest) (op : String) (now now2 : Nat)
       (exec : String → Option CmdResult) (parseM : String → Option Manifest),
       truthyStr r.operation = some op →
       s.operationInProgress op = false →
       ((operationPOST s (some r) now now2 exec parseM).1).operationInProgress op
         = false) := by
  constructor
  · intro s now now2 nowErr exec parseM rth hflag
    unfold restartPOST restartBody
    split
    · exact hflag
    · split
      · exact hflag
      · split
        · exact hflag
        · dsimp only
          split
          · split <;> rfl
          · split <;> rfl
  · intro s r op now now2 exec parseM hop hflag
    unfold operationPOST
    split
    · exact hflag
    · dsimp only
      rw [hop]
      dsimp only
      rw [hflag]
      simp only [Bool.false_and, Bool.false_eq_true, if_false]
      split
      · exact hflag
      · simp [updB]

/-- Witness request for C3's operations conjunct. -/
def wOpReq : OpRequest :=
  { operation := some "dev"
    packages := []
    argsDev := false
    argsLines := none
    force := false }

def wOpState : OpState :=
  { hasProvider := true
    operationInProgress := fun _ => false
    lastOperationTime := fun _ => 0 }

/-- Witness for C3: both conjuncts applied at concrete runs that take the
full body (the restart run takes the manual fallback path, the operations
run executes `dev`). -/
theorem inprogress_flag_cleared_witness :
    (restartPOST (⟨true, false, false, 0⟩ : RestartState)
      50000 60000 0 oracleFail parseNoManifest false).1.devRestartInProgress = false ∧
    ((operationPOST wOpState (some wOpReq) 5000 6000 oracleFail
        parseNoManifest).1).operationInProgress "dev" = false :=
  ⟨inprogress_flag_cleared.1 _ 50000 60000 0 oracleFail parseNoManifest false rfl,
   inprogress_flag_cleared.2 wOpState wOpReq "dev" 5000 6000 oracleFail
     parseNoManifest rfl rfl⟩

end OpenLovable
